import Mathlib

/-!
Verification of the content contract and template-rendering pipeline of the
Customer-Update slide generator (`streamlit_app.py`).

The development shallowly embeds the program's core functions:

* `generate_sections` — the Content Provider (preset table, generic fallback,
  and the two remote-provider branches, with the network calls abstracted as
  oracle parameters, since claims never depend on a successful remote round trip);
* `safe_parse_json` — the two-stage response parser, including a faithful
  executable model of the specific regular-expression scan
  (triple-backtick fence, optional `json` tag, non-greedy brace span,
  leftmost non-overlapping matches) that the source performs via `re.findall`;
* `rgb_hex_to_tuple` — the accent-color conversion;
* `build_slide` and its helpers — the Slide Renderer, modelled as a function
  producing the list of shapes placed on the slide, in placement order, with
  the geometry, fonts and colors the source hard-codes.

Python-level failures (`RuntimeError`, `ValueError`, `KeyError`) are modelled
with an explicit error type and `Except`; the Python standard-library
`json.loads` is modelled by an executable recursive-descent parser `jsonLoads`
covering objects, arrays, strings (with the simple escapes), integers,
booleans and null — the fragment exercised here (floats and `\uXXXX` escapes
are out of scope and simply fail to parse).
-/

namespace CustomerUpdate

/-- Model of the Python exceptions the app raises or propagates. -/
inductive PyErr where
  | runtimeError (msg : String)
  | valueError (msg : String)
  | keyError (key : String)
  | transportError (msg : String)
deriving DecidableEq, Repr

/-- A parsed JSON value, the result type of the `json.loads` model. -/
inductive Json where
  | null
  | bool (b : Bool)
  | num (n : Int)
  | str (s : String)
  | arr (elems : List Json)
  | obj (members : List (String × Json))
deriving Inhabited

/-- A value stored under a key of a content record: the schema uses one
scalar paragraph (`corporate_vision`) and four ordered bullet lists. -/
inductive SecVal where
  | s (v : String)
  | l (lines : List String)
deriving DecidableEq, Repr

/-- A ContentRecord as the Python code handles it: a dict from field name to
value, modelled as an association list with the dict's insertion order. -/
abbrev Sections := List (String × SecVal)

/-! ### Model of `json.loads` (Python standard library)

A fuel-based recursive-descent parser over the character list.  Restrictions
relative to CPython's `json.loads`, none of which matter for the payloads in
question: numbers are integers only (a fraction or exponent makes the parse
fail rather than produce a float), `\uXXXX` string escapes are unsupported
(the parse fails), and duplicate object keys are kept in order rather than
collapsed to the last one. -/

/-- JSON whitespace (also the model of the regex class `\s` below). -/
def isWsChar (c : Char) : Bool := c == ' ' || c == '\t' || c == '\n' || c == '\r'

/-- Drop leading whitespace. -/
def skipWs : List Char → List Char
  | [] => []
  | c :: cs => if isWsChar c then skipWs cs else c :: cs

/-- Decode one JSON string escape character (after the backslash). -/
def escChar (e : Char) : Option Char :=
  if e == '"' then some '"'
  else if e == '\\' then some '\\'
  else if e == '/' then some '/'
  else if e == 'n' then some '\n'
  else if e == 't' then some '\t'
  else if e == 'r' then some '\r'
  else if e == 'b' then some (Char.ofNat 8)
  else if e == 'f' then some (Char.ofNat 12)
  else none

/-- Parse the remainder of a JSON string (the opening quote already consumed);
returns the decoded content and the input after the closing quote. -/
def parseStringRest : List Char → Option (List Char × List Char)
  | [] => none
  | c :: rest =>
    if c == '"' then some ([], rest)
    else if c == '\\' then
      match rest with
      | [] => none
      | e :: rest2 =>
        match escChar e, parseStringRest rest2 with
        | some ec, some (content, r) => some (ec :: content, r)
        | _, _ => none
    else if c.toNat < 32 then none
    else
      match parseStringRest rest with
      | some (content, r) => some (c :: content, r)
      | none => none

/-- Numeric value of a digit list. -/
def digitsToNat (ds : List Char) : Nat :=
  ds.foldl (fun a c => 10 * a + (c.toNat - 48)) 0

/-- Parse a JSON integer starting at `cs` (first character already known to be
a digit or minus sign).  Rejects leading zeros and anything followed by a
fraction or exponent. -/
def parseIntRest (cs : List Char) : Option (Json × List Char) :=
  let neg := cs.head? == some '-'
  let cs1 := if neg then cs.drop 1 else cs
  let ds := cs1.takeWhile Char.isDigit
  let rest := cs1.dropWhile Char.isDigit
  if ds.isEmpty then none
  else if ds.length > 1 && ds.head? == some '0' then none
  else
    match rest with
    | '.' :: _ => none
    | 'e' :: _ => none
    | 'E' :: _ => none
    | _ =>
      let v : Int := (digitsToNat ds : Nat)
      some (.num (if neg then -v else v), rest)

/-- Parse one JSON value (with leading whitespace), returning the value and
the unconsumed input.  `fuel` bounds the recursion; `jsonLoads` supplies
enough of it for any input. -/
def parseVal : Nat → List Char → Option (Json × List Char)
  | 0, _ => none
  | Nat.succ f, cs0 =>
    match skipWs cs0 with
    | [] => none
    | c :: cs =>
      if c == '"' then
        match parseStringRest cs with
        | some (content, r) => some (.str (String.mk content), r)
        | none => none
      else if c == '{' then
        match skipWs cs with
        | '}' :: r => some (.obj [], r)
        | '"' :: ks =>
          (match parseStringRest ks with
           | some (keyContent, r1) =>
             (match skipWs r1 with
              | ':' :: r2 =>
                (match parseVal f r2 with
                 | some (v, r3) =>
                   (match skipWs r3 with
                    | ',' :: r4 =>
                      (match skipWs r4 with
                       | '}' :: _ => none
                       | _ =>
                         match parseVal f ('{' :: r4) with
                         | some (.obj kvs, r5) =>
                             some (.obj ((String.mk keyContent, v) :: kvs), r5)
                         | _ => none)
                    | '}' :: r4 => some (.obj [(String.mk keyContent, v)], r4)
                    | _ => none)
                 | none => none)
              | _ => none)
           | none => none)
        | _ => none
      else if c == '[' then
        match skipWs cs with
        | ']' :: r => some (.arr [], r)
        | _ =>
          match parseVal f cs with
          | some (v, r1) =>
            (match skipWs r1 with
             | ',' :: r2 =>
               (match skipWs r2 with
                | ']' :: _ => none
                | _ =>
                  match parseVal f ('[' :: r2) with
                  | some (.arr vs, r3) => some (.arr (v :: vs), r3)
                  | _ => none)
             | ']' :: r2 => some (.arr [v], r2)
             | _ => none)
          | none => none
      else if c == 't' then
        if ['r', 'u', 'e'].isPrefixOf cs then some (.bool true, cs.drop 3) else none
      else if c == 'f' then
        if ['a', 'l', 's', 'e'].isPrefixOf cs then some (.bool false, cs.drop 4) else none
      else if c == 'n' then
        if ['u', 'l', 'l'].isPrefixOf cs then some (.null, cs.drop 3) else none
      else
        parseIntRest (c :: cs)

/-- Model of `json.loads`: parse the whole string as one JSON value, allowing
surrounding whitespace only; `none` models a raised `json.JSONDecodeError`. -/
def jsonLoads (s : String) : Option Json :=
  match parseVal (s.data.length + 1) s.data with
  | some (v, rest) => if (skipWs rest).isEmpty then some v else none
  | none => none

/-! ### Model of the `re.findall` scan in `safe_parse_json`

The source runs, with `re.S` (DOTALL), the pattern

    (three backticks) (?:json)? \s* ( openbrace .*? closebrace ) \s* (three backticks)

and collects the captured groups of the leftmost non-overlapping matches.
This is modelled directly: a match attempt at a position succeeds exactly when
the text there starts with the three-backtick fence, optionally the literal
tag `json`, then whitespace, then an opening brace; the non-greedy body ends
at the first closing brace that is followed by whitespace and another fence.
The scan tries every position left to right and resumes after each match. -/

/-- The backtick character. -/
def btick : Char := Char.ofNat 96

/-- A triple-backtick fence, as a character list. -/
def fenceStr : List Char := [btick, btick, btick]

/-- The literal tag `json` of the optional `(?:json)?` group. -/
def jsonTag : List Char := ['j', 's', 'o', 'n']

/-- Consume the optional literal `json` tag: `(?:json)?` matches it exactly
when it is literally present (when it is, backtracking to the empty
alternative can never help, since text starting with `json` fails the
subsequent `\s*\{` either way). -/
def stripTag (cs : List Char) : List Char :=
  if jsonTag.isPrefixOf cs then cs.drop 4 else cs

/-- Does `\s*` followed by a fence match here? (the lookahead after the
captured group's closing brace). -/
def fenceAfterWs (cs : List Char) : Bool := fenceStr.isPrefixOf (skipWs cs)

/-- Input remaining after consuming `\s*` and the closing fence. -/
def dropFenceAfterWs (cs : List Char) : List Char := (skipWs cs).drop 3

/-- Non-greedy search for the body's end: the first closing brace followed by
`\s*` and a fence.  Returns the body (closing brace included) and the input
after the closing fence. -/
def findClose : List Char → Option (List Char × List Char)
  | [] => none
  | c :: rest =>
    if c == '}' && fenceAfterWs rest then
      some (['}'], dropFenceAfterWs rest)
    else
      match findClose rest with
      | some (body, r) => some (c :: body, r)
      | none => none

/-- One match attempt of the full pattern at the current position.  On
success, returns the captured group and the input after the whole match. -/
def tryMatchAt (cs : List Char) : Option (List Char × List Char) :=
  match cs with
  | c1 :: c2 :: c3 :: rest =>
    if c1 == btick && c2 == btick && c3 == btick then
      match skipWs (stripTag rest) with
      | '{' :: body =>
        (match findClose body with
         | some (b, r) => some ('{' :: b, r)
         | none => none)
      | _ => none
    else none
  | _ => none

/-- The scan over all positions; `fuel` bounds the iteration and the input
length is always enough (each step consumes at least one character). -/
def findallAux : Nat → List Char → List (List Char)
  | 0, _ => []
  | Nat.succ fuel, cs =>
    match cs with
    | [] => []
    | _ :: rest =>
      match tryMatchAt cs with
      | some (cap, r) => cap :: findallAux fuel r
      | none => findallAux fuel rest

/-- All captured groups of the leftmost non-overlapping matches, in document
order: the model of `re.findall(pattern, text, flags=re.S)` on character
lists. -/
def reFindallL (cs : List Char) : List (List Char) := findallAux cs.length cs

/-- String-level wrapper of `reFindallL`. -/
def reFindall (text : String) : List String := (reFindallL text.data).map String.mk

/-- First block of the list that `json.loads` accepts — the `for b in blocks`
loop of `safe_parse_json`, generic in the parse function. -/
def firstParse {α : Type} (jl : String → Option α) : List String → Option α
  | [] => none
  | b :: bs =>
    match jl b with
    | some v => some v
    | none => firstParse jl bs

/-- `safe_parse_json`: strict whole-body parse first; on failure, scan for
fenced blocks and return the first one that parses; otherwise raise
`ValueError`.  Generic in the `json.loads` result type so the same code can
be read at the JSON level (parsing claims) and at the record level
(`generate_sections`). -/
def safeParseJson {α : Type} (jl : String → Option α) (text : String) : Except PyErr α :=
  match jl text with
  | some v => .ok v
  | none =>
    match firstParse jl (reFindall text) with
    | some v => .ok v
    | none => .error (.valueError "Could not parse JSON from model output.")

/-! ### Content generation (`generate_sections` and its data)

The two remote calls (`call_openai_chat`, `call_anthropic`) perform network
I/O; they are abstracted as oracle parameters returning either the response
text or a raised exception (`requests` errors / `raise_for_status`).  The
`json.loads` applied to a response is likewise a parameter `jl`, read at the
record type.  The preset table and the generic fallback are transcribed
verbatim from the source (Python adjacent string literals concatenated). -/

/-- `USER_PROMPT_TMPL.format(customer=...)`: the user message template with
the customer name interpolated. -/
def USER_PROMPT_TMPL (customer : String) : String :=
  "Company: " ++ customer ++ "\n\n" ++
  "Task: Draft sections for an executive slide titled \"Customer Updates – Strategic Priorities & Supply Chain Context\".\n" ++
  "Keep it concise, factual, and presentation-ready. Use bullets where applicable. No fluff.\n\n" ++
  "Return strict JSON with keys:\n" ++
  "- corporate_vision: string (2–3 sentences).\n" ++
  "- business_strategies: array of 4–6 short bullets.\n" ++
  "- supply_chain_contribution: array of 4–6 short bullets.\n" ++
  "- risks_of_supply_chain_failure: array of 4–6 short bullets.\n" ++
  "- critical_capabilities: array of 4–6 short bullets.\n\n" ++
  "Rules:\n" ++
  "- Base on widely reported info (brand positioning, retail/e-commerce ops, logistics practices).\n" ++
  "- If specifics are not well-documented, provide conservative, relevant bullets for the company type.\n" ++
  "- Do not include sources or URLs. Return only JSON.\n"

/-- The stored preset record for "Rugs USA". -/
def rugsUSAPreset : Sections :=
  [ ("corporate_vision", .s
      ("Rugs USA helps customers turn houses into homes by offering a curated, " ++
       "stylish, high-quality assortment at compelling prices, delivered through a " ++
       "seamless digital shopping and support experience.")),
    ("business_strategies", .l
      [ "Expand ‘house of brands’ to broaden assortment and reach.",
        "Accelerate operational efficiency via DC consolidation and lean processes.",
        "Win digital: strengthen DTC and marketplaces for scaled demand.",
        "Refresh catalog with designer and partner collaborations.",
        "Tighten pricing, merchandising, and returns to lift unit economics." ]),
    ("supply_chain_contribution", .l
      [ "Faster delivery through optimized DC network and slotting.",
        "Flexible routing to serve DTC site and marketplaces.",
        "Rapid vendor onboarding with packaging and QC compliance.",
        "Inventory visibility and demand-aligned PO planning.",
        "Carrier and 3PL partnerships for cost and reliability." ]),
    ("risks_of_supply_chain_failure", .l
      [ "Debt pressure constraining capex for ops improvements.",
        "Housing-linked demand volatility driving forecast error.",
        "WMS/OMS outages disrupting pick-pack-ship rhythm.",
        "Integration slippage from M&A or DC consolidation.",
        "Supplier or carrier delays impacting service levels." ]),
    ("critical_capabilities", .l
      [ "Modern fulfillment stack: SaaS WMS/OMS and mobile tools.",
        "SKU-level forecasting and returns analytics.",
        "Marketplace and carrier relationship management.",
        "Integration playbooks for synergy capture and cost control.",
        "Governance: change control, DR, and vendor SLAs." ]) ]

/-- The static preset table `PRESETS` (one known customer). -/
def PRESETS : List (String × Sections) := [("Rugs USA", rugsUSAPreset)]

/-- Suffix of the generic fallback's vision sentence, appended to the
customer name by the f-string. -/
def genericVisionSuffix : String :=
  " delivers curated, great-value products through a digital-first, " ++
  "customer-centric experience focused on quality, style, and convenience."

/-- The fixed generic `business_strategies` fallback list. -/
def genericBusinessStrategies : List String :=
  [ "Broaden assortment and strengthen brand positioning.",
    "Improve fulfillment speed and delivery reliability.",
    "Scale profitability via pricing and returns discipline.",
    "Grow demand through marketplaces and partnerships.",
    "Invest in data-driven merchandising and CX." ]

/-- The fixed generic `supply_chain_contribution` fallback list. -/
def genericSupplyChainContribution : List String :=
  [ "Optimize DC footprint and pick-pack efficiency.",
    "Enable omnichannel routing and inventory visibility.",
    "Tighten supplier onboarding and packaging compliance.",
    "Leverage carrier mix for cost and service balance.",
    "Deploy WMS/OMS dashboards for real-time control." ]

/-- The fixed generic `risks_of_supply_chain_failure` fallback list. -/
def genericRisks : List String :=
  [ "Forecast error from macro or seasonal volatility.",
    "System outages disrupting order flow or labeling.",
    "Carrier delays or capacity constraints.",
    "Supplier quality or lead-time variability.",
    "Cost inflation eroding contribution margins." ]

/-- The fixed generic `critical_capabilities` fallback list. -/
def genericCriticalCapabilities : List String :=
  [ "Reliable WMS/OMS with strict change control.",
    "SKU-level demand and returns analytics.",
    "S&OP cadence linking demand to supply plans.",
    "Partner SLAs and performance governance.",
    "Contingency playbooks and DR testing." ]

/-- The generic fallback record built for a customer absent from `PRESETS`. -/
def genericFallback (customer_name : String) : Sections :=
  [ ("corporate_vision", .s (customer_name ++ genericVisionSuffix)),
    ("business_strategies", .l genericBusinessStrategies),
    ("supply_chain_contribution", .l genericSupplyChainContribution),
    ("risks_of_supply_chain_failure", .l genericRisks),
    ("critical_capabilities", .l genericCriticalCapabilities) ]

/-- `generate_sections(customer_name, mode, key)`.  `requestsAvailable`
models whether the optional `requests` import succeeded; `jl` models
`json.loads` at the record type; `callOpenai`/`callAnthropic` abstract the
two network functions (credential and prompt in, response text or raised
exception out). -/
def generate_sections (requestsAvailable : Bool) (jl : String → Option Sections)
    (callOpenai : String → String → Except PyErr String)
    (callAnthropic : String → String → Except PyErr String)
    (customer_name : String) (mode : String) (key : String) : Except PyErr Sections :=
  if mode = "No-LLM (preset/smart template)" then
    match PRESETS.lookup customer_name with
    | some rec => .ok rec
    | none => .ok (genericFallback customer_name)
  else if mode = "OpenAI" then
    if !requestsAvailable then .error (.runtimeError "`requests` package not available.")
    else if key = "" then .error (.runtimeError "Missing OpenAI API key.")
    else
      match callOpenai key (USER_PROMPT_TMPL customer_name) with
      | .ok text => safeParseJson jl text
      | .error e => .error e
  else if mode = "Anthropic" then
    if !requestsAvailable then .error (.runtimeError "`requests` package not available.")
    else if key = "" then .error (.runtimeError "Missing Anthropic API key.")
    else
      match callAnthropic key (USER_PROMPT_TMPL customer_name) with
      | .ok text => safeParseJson jl text
      | .error e => .error e
  else .error (.runtimeError "Unknown provider.")

/-! ### PPTX rendering (`build_slide` and helpers)

The slide is modelled as the list of shapes placed on it, in placement
order.  Coordinates and sizes are in thousandths of an inch
(`Inches(0.5)` in the source ↦ `500`), which renders the source's
fixed-point decimal geometry as exact integer arithmetic; font sizes are in
points.  A text box carries its paragraphs; setting no explicit font
attribute is modelled as `none`/`false`.  The cosmetic
`shp.line.fill.background()` calls (no outline) are constant on every shape
of a kind and are not modelled. -/

/-- Raw uploaded bytes (`file_uploader_obj.getvalue()`). -/
abbrev Bytes := List Nat

/-- Paragraph alignment, where the source sets one (`PP_ALIGN.RIGHT`). -/
inductive Align where
  | right
deriving DecidableEq, Repr

/-- One paragraph of a text frame with the font attributes the source sets
(size and space-after in points). -/
structure Para where
  text : String
  size : Option Nat
  bold : Bool
  color : Option (Nat × Nat × Nat)
  spaceAfter : Option Nat
  align : Option Align
deriving DecidableEq, Repr

/-- A shape placed on the slide; positions and sizes in milli-inches. -/
inductive Shape where
  | textbox (x y w h : Int) (paras : List Para)
  | rect (x y w h : Int) (fill : Nat × Nat × Nat)
  | picture (x y w : Int) (data : Bytes)
deriving DecidableEq, Repr

/-- `add_logo(slide, file_uploader_obj)`: nothing when no file was uploaded;
otherwise the picture at `(11.4, 0.3)` inches with width `1.6`.  The body
runs under `try/except Exception: pass`, so a raising decode/placement call
(abstracted as the `addPicture` oracle) adds nothing instead of failing. -/
def add_logo (addPicture : Bytes → Except PyErr Unit) (logo : Option Bytes) : List Shape :=
  match logo with
  | none => []
  | some data =>
    match addPicture data with
    | .ok _ => [.picture 11400 300 1600 data]
    | .error _ => []

/-- `add_rule(slide, y_in, color)`: the thin horizontal rule rectangle at
`x = 0.5`, width `12.3`, height `0.02 * 2.2 = 0.044` inches (default
thickness 2.2). -/
def add_rule (y_in : Int) (color : Nat × Nat × Nat) : Shape :=
  .rect 500 y_in 12300 44 color

/-- `left_label(slide, text, y_in)`: the bold black 24pt rail label in a box
at `x = 0.3`, width `2.5`, height `1.0` inches. -/
def left_label (text : String) (y_in : Int) : Shape :=
  .textbox 300 y_in 2500 1000 [⟨text, some 24, true, some (0, 0, 0), none, none⟩]

/-- Paragraphs of the body box of `right_title_body`: one plain paragraph
for a scalar, one 14pt paragraph per line for a sequence.  A cleared text
frame keeps a single empty paragraph, which the empty loop never replaces. -/
def bodyParas : SecVal → List Para
  | .s t => [⟨t, some 14, false, none, none, none⟩]
  | .l lines =>
    match lines with
    | [] => [⟨"", none, false, none, none, none⟩]
    | _ => lines.map fun line => ⟨line, some 14, false, none, some 2, none⟩

/-- `right_title_body(slide, title, body, y_in)`: the bold 22pt title box
(`x = 3.0`, width `9.6`, height `0.7` inches) and the body box `0.55` inches
below it (same `x` and width, height `1.4`). -/
def right_title_body (title : String) (body : SecVal) (y_in : Int) : List Shape :=
  [ .textbox 3000 y_in 9600 700 [⟨title, some 22, true, none, none, none⟩],
    .textbox 3000 (y_in + 550) 9600 1400 (bodyParas body) ]

/-- The `["• " + s for s in v]` bullet comprehension.  Python iterates any
value: a list maps per line; a string (malformed record) iterates per
character, as the comprehension would. -/
def bulletize : SecVal → SecVal
  | .l lines => .l (lines.map fun s => "• " ++ s)
  | .s t => .l (t.data.map fun c => "• " ++ String.mk [c])

/-- The fixed `rows` list: (rail label, title, body) per row, in order. -/
def rowsOf (cv bs scc risks caps : SecVal) : List (String × String × SecVal) :=
  [ ("Corporate\nVision", "Corporate Vision", cv),
    ("Business\nStrategies", "Business Strategies", bulletize bs),
    ("Supply Chain\nContribution", "Supply Chain Contribution", bulletize scc),
    ("Risks of\nSupply Chain\nFailure", "Risks of Supply Chain Failure", bulletize risks),
    ("Critical\nCapabilities", "Critical Capabilities", bulletize caps) ]

/-- The `for rail, title, body in rows` loop: per row at offset `y`, the rail
label at `y - 0.05`, title and body via `right_title_body` at `y - 0.02`, the
gray rule at `y + row_h`, then `y += row_h` with `row_h = 1.4` inches. -/
def renderRows : List (String × String × SecVal) → Int → List Shape
  | [], _ => []
  | (rail, title, body) :: rest, y =>
    (left_label rail (y - 50) ::
      (right_title_body title body (y - 20) ++ [add_rule (y + 1400) (165, 175, 190)])) ++
    renderRows rest (y + 1400)

/-- `sections[k]`: dict access, raising `KeyError(k)` when the field is
absent. -/
def getItem (sections : Sections) (k : String) : Except PyErr SecVal :=
  match sections.lookup k with
  | some v => .ok v
  | none => .error (.keyError k)

/-- The full shape list of a successfully rendered slide, in the order the
source adds them: header title, optional logo, accent bar, the five rows
(rail label, title box, body box, rule each, starting at `y = 1.25`), and
the footer (customer name, bullet separator, current date, right-aligned). -/
def renderedDoc (addPicture : Bytes → Except PyErr Unit) (nowStr customer_name : String)
    (accent_rgb : Nat × Nat × Nat) (cv bs scc risks caps : SecVal)
    (logo : Option Bytes) : List Shape :=
  [Shape.textbox 500 350 9000 900 [⟨"Customer Updates", some 44, true, none, none, none⟩]] ++
  add_logo addPicture logo ++
  [Shape.rect 2800 1200 60 5800 accent_rgb] ++
  renderRows (rowsOf cv bs scc risks caps) 1250 ++
  [Shape.textbox 500 6900 12300 400
    [⟨customer_name ++ "  •  " ++ nowStr, some 12, false, some (90, 90, 90), none, some .right⟩]]

/-- `build_slide(customer_name, accent_rgb, sections, logo_bytes)`.  The five
dict accesses happen while the source builds its `rows` list, after only
cosmetic shapes were placed; a `KeyError` aborts the whole rendering (the
partial presentation object is discarded by the caller), so hoisting the
accesses ahead of the shape list preserves the observable semantics.  The
current date is the `nowStr` parameter; the source's `add_logo(slide,
logo_file)` reads the module-level uploaded file, which at the sole call
site is the same value as the `logo_bytes` argument used here. -/
def build_slide (addPicture : Bytes → Except PyErr Unit) (nowStr : String)
    (customer_name : String) (accent_rgb : Nat × Nat × Nat)
    (sections : Sections) (logo : Option Bytes) : Except PyErr (List Shape) := do
  let cv ← getItem sections "corporate_vision"
  let bs ← getItem sections "business_strategies"
  let scc ← getItem sections "supply_chain_contribution"
  let risks ← getItem sections "risks_of_supply_chain_failure"
  let caps ← getItem sections "critical_capabilities"
  return renderedDoc addPicture nowStr customer_name accent_rgb cv bs scc risks caps logo

/-- `rgb_hex_to_tuple(hex_color)`: strip leading `#` characters, then read
the three two-character slices as base-16 integers.  `none` models the
`ValueError` that `int(..., 16)` raises on an empty or non-hex slice. -/
def hexDigitVal (c : Char) : Option Nat :=
  let n := c.toNat
  if 48 ≤ n ∧ n ≤ 57 then some (n - 48)
  else if 97 ≤ n ∧ n ≤ 102 then some (n - 87)
  else if 65 ≤ n ∧ n ≤ 70 then some (n - 55)
  else none

/-- `int(s, 16)` on a slice: fails on the empty slice or a non-hex digit. -/
def pyIntHex (cs : List Char) : Option Nat :=
  match cs with
  | [] => none
  | _ =>
    cs.foldl
      (fun acc c =>
        match acc, hexDigitVal c with
        | some a, some d => some (16 * a + d)
        | _, _ => none)
      (some 0)

/-- The color conversion `rgb_hex_to_tuple`. -/
def rgb_hex_to_tuple (hex_color : String) : Option (Nat × Nat × Nat) :=
  let h := hex_color.data.dropWhile (fun c => c == '#')
  match pyIntHex ((h.drop 0).take 2), pyIntHex ((h.drop 2).take 2), pyIntHex ((h.drop 4).take 2) with
  | some r, some g, some b => some (r, g, b)
  | _, _, _ => none

/-! ### Re-reading a rendered document

A reader over the produced shape list, relying only on the fixed geometry
(not on shape order of unrelated elements): the five title boxes are the
text boxes at `x = 3.0` of height `0.7`, the five body boxes those of height
`1.4`, the rail labels the boxes at `x = 0.3`, the rules the rectangles at
`x = 0.5`, the accent bar the rectangle at `x = 2.8`.  Bullet lines are the
paragraphs carrying the bullet glyph prefix `"• "`, with the glyph (pure
presentation, like the font metadata) stripped. -/

/-- Texts of the row title boxes, in document order. -/
def titleTexts (doc : List Shape) : List String :=
  doc.filterMap fun sh =>
    match sh with
    | .textbox x _ w h ps =>
      if x = 3000 ∧ w = 9600 ∧ h = 700 then (ps.head?).map (fun p => p.text) else none
    | _ => none

/-- Texts and vertical offsets of the row title boxes, in document order. -/
def titleInfo (doc : List Shape) : List (String × Int) :=
  doc.filterMap fun sh =>
    match sh with
    | .textbox x y w h ps =>
      if x = 3000 ∧ w = 9600 ∧ h = 700 then (ps.head?).map (fun p => (p.text, y)) else none
    | _ => none

/-- Paragraph lists of the row body boxes, in document order. -/
def bodyBoxes (doc : List Shape) : List (List Para) :=
  doc.filterMap fun sh =>
    match sh with
    | .textbox x _ _ h ps => if x = 3000 ∧ h = 1400 then some ps else none
    | _ => none

/-- Vertical offsets of the row body boxes, in document order. -/
def bodyYs (doc : List Shape) : List Int :=
  doc.filterMap fun sh =>
    match sh with
    | .textbox x y _ h _ => if x = 3000 ∧ h = 1400 then some y else none
    | _ => none

/-- Texts and vertical offsets of the rail labels, in document order. -/
def railInfo (doc : List Shape) : List (String × Int) :=
  doc.filterMap fun sh =>
    match sh with
    | .textbox x y _ _ ps =>
      if x = 300 then (ps.head?).map (fun p => (p.text, y)) else none
    | _ => none

/-- Vertical offsets of the horizontal rules, in document order. -/
def ruleYs (doc : List Shape) : List Int :=
  doc.filterMap fun sh =>
    match sh with
    | .rect x y _ _ _ => if x = 500 then some y else none
    | _ => none

/-- Fill colors of the accent bar(s), in document order. -/
def vbarFills (doc : List Shape) : List (Nat × Nat × Nat) :=
  doc.filterMap fun sh =>
    match sh with
    | .rect x _ _ _ fill => if x = 2800 then some fill else none
    | _ => none

/-- The bullet lines of a body box: paragraphs starting with the bullet
glyph, glyph stripped. -/
def bulletLines (ps : List Para) : List String :=
  ps.filterMap fun p =>
    match p.text.data with
    | '•' :: ' ' :: rest => some (String.mk rest)
    | _ => none

/-- Recover the record from a rendered document: the five titles in row
order, the vision row read as its single paragraph, the four bullet rows as
their stripped bullet lines. -/
def recoverRecord (doc : List Shape) : Option (List (String × SecVal)) :=
  match titleTexts doc, bodyBoxes doc with
  | [t0, t1, t2, t3, t4], [b0, b1, b2, b3, b4] =>
    (b0.head?).map fun p =>
      [ (t0, .s p.text), (t1, .l (bulletLines b1)), (t2, .l (bulletLines b2)),
        (t3, .l (bulletLines b3)), (t4, .l (bulletLines b4)) ]
  | _, _ => none

/-- Is the shape not a picture? (everything except a placed logo). -/
def notPicture : Shape → Bool
  | .picture _ _ _ _ => false
  | _ => true

/-- The five required record fields, in the order the renderer reads them. -/
def requiredFields : List String :=
  [ "corporate_vision", "business_strategies", "supply_chain_contribution",
    "risks_of_supply_chain_failure", "critical_capabilities" ]

/-! ### Fenced blocks as the spec describes them

Used to state C10 against the code: the spec-side reading of "fenced block"
is the text between consecutive triple-backtick markers, paired left to
right.  These definitions follow the claim's words, not the source. -/

/-- Split on triple-backtick markers, leftmost non-overlapping: the segments
of the text between consecutive markers.  `fuel` bounds the iteration; the
input length is always enough. -/
def splitFencesAux : Nat → List Char → List (List Char)
  | 0, cs => [cs]
  | Nat.succ fuel, cs =>
    match cs with
    | [] => [[]]
    | c1 :: rest1 =>
      match rest1 with
      | c2 :: c3 :: rest =>
        if c1 = btick ∧ c2 = btick ∧ c3 = btick then
          [] :: splitFencesAux fuel rest
        else
          match splitFencesAux fuel rest1 with
          | s :: ss => (c1 :: s) :: ss
          | [] => [[c1]]
      | _ =>
        match splitFencesAux fuel rest1 with
        | s :: ss => (c1 :: s) :: ss
        | [] => [[c1]]

/-- The segments of a text between consecutive triple-backtick markers. -/
def splitFences (cs : List Char) : List (List Char) := splitFencesAux cs.length cs

/-- Every second segment: the contents of the fenced blocks, in document
order (conventional pairing of the markers). -/
def oddSegs {α : Type} : List α → List α
  | [] => []
  | [_] => []
  | _ :: b :: rest => b :: oddSegs rest

/-- The fenced blocks of a response body, per the claim's reading. -/
def specFencedBlocks (s : String) : List (List Char) := oddSegs (splitFences s.data)

/-- Is a block's content brace-delimited (`{` ... `}`) in the claim's sense? -/
def isBraceDelim (cs : List Char) : Bool :=
  cs.head? == some '{' && cs.getLast? == some '}'

/-- What C10 says `safe_parse_json` computes after a failed strict parse:
the parse of the first brace-delimited fenced block that is valid JSON. -/
def claimC10Prediction (s : String) : Option Json :=
  firstParse jsonLoads (((specFencedBlocks s).filter isBraceDelim).map String.mk)

/-! ### Per-block view of the regex scan

`blockCapture` decides, from a fenced block's content alone, whether the
pattern can match inside that one fence and what it would capture: after the
optional `json` tag and leading whitespace the content must start with an
opening brace, and apart from trailing whitespace it must end with a closing
brace; the capture is the brace-delimited span.  The amended C10 relates the
global scan to this block-local view. -/

/-- The capture the pattern would produce inside this fence, if any. -/
def blockCapture (blk : List Char) : Option (List Char) :=
  let c2 := skipWs (stripTag blk)
  let body := (skipWs c2.reverse).reverse
  match c2, body.getLast? with
  | '{' :: _, some '}' => some body
  | _, _ => none

/-- Contains no backtick (in particular no fence marker). -/
def btickFree (cs : List Char) : Bool := cs.all fun c => !(c == btick)

/-- Contains no opening brace. -/
def braceFree (cs : List Char) : Bool := cs.all fun c => !(c == '{')

/-- A response body assembled from fenced blocks: for each pair, a fence,
the block content, the closing fence, then the prose run to the next fence. -/
def fencedConcat : List (List Char × List Char) → List Char
  | [] => []
  | (blk, seg) :: rest => fenceStr ++ blk ++ fenceStr ++ seg ++ fencedConcat rest

/-! ### Helper lemmas about the regex scan -/

theorem skipWs_length (cs : List Char) : (skipWs cs).length ≤ cs.length := by
  induction cs with
  | nil => simp [skipWs]
  | cons c cs ih =>
    simp only [skipWs]
    split
    · exact le_trans ih (by simp)
    · simp

theorem stripTag_length (cs : List Char) : (stripTag cs).length ≤ cs.length := by
  unfold stripTag
  split
  · simp
  · exact le_refl _

theorem findClose_length (cs b r : List Char) (h : findClose cs = some (b, r)) :
    r.length ≤ cs.length := by
  induction cs generalizing b r with
  | nil => simp [findClose] at h
  | cons c cs ih =>
    simp only [findClose] at h
    split at h
    · obtain ⟨-, rfl⟩ := Prod.mk.injEq .. ▸ Option.some.inj h
      have h1 := skipWs_length cs
      have h2 : (dropFenceAfterWs cs).length ≤ (skipWs cs).length := by
        simp [dropFenceAfterWs]
      simp only [List.length_cons]
      omega
    · cases hfc : findClose cs with
      | none => rw [hfc] at h; exact absurd h (by simp)
      | some p =>
        obtain ⟨body, r'⟩ := p
        rw [hfc] at h
        obtain ⟨-, rfl⟩ := Prod.mk.injEq .. ▸ Option.some.inj h
        have := ih body r' hfc
        simp only [List.length_cons]
        omega

/-- Unfolding equation of `tryMatchAt` on a list of length at least three. -/
theorem tryMatchAt_cons (c1 c2 c3 : Char) (rest : List Char) :
    tryMatchAt (c1 :: c2 :: c3 :: rest) =
      if c1 == btick && c2 == btick && c3 == btick then
        match skipWs (stripTag rest) with
        | '{' :: body =>
          (match findClose body with
           | some (b, r) => some ('{' :: b, r)
           | none => none)
        | _ => none
      else none := rfl

theorem tryMatchAt_length (cs : List Char) (p : List Char × List Char)
    (h : tryMatchAt cs = some p) : p.2.length < cs.length := by
  rcases cs with - | ⟨c1, - | ⟨c2, - | ⟨c3, rest⟩⟩⟩
  · exact absurd h (by simp [tryMatchAt])
  · exact absurd h (by simp [tryMatchAt])
  · exact absurd h (by simp [tryMatchAt])
  · rw [tryMatchAt_cons] at h
    split at h
    · split at h
      · rename_i body heq
        split at h
        · rename_i b r hfc
          obtain rfl := Option.some.inj h
          have h1 := findClose_length body b r hfc
          have h2 : (skipWs (stripTag rest)).length ≤ rest.length :=
            le_trans (skipWs_length _) (stripTag_length _)
          rw [heq] at h2
          simp only [List.length_cons] at h2 ⊢
          omega
        · exact absurd h (by simp)
      · exact absurd h (by simp)
    · exact absurd h (by simp)

/-- The scan result does not depend on the fuel, once the fuel covers the
input length. -/
theorem findallAux_congr (f1 : Nat) : ∀ (cs : List Char) (f2 : Nat),
    cs.length ≤ f1 → cs.length ≤ f2 → findallAux f1 cs = findallAux f2 cs := by
  induction f1 with
  | zero =>
    intro cs f2 h1 _
    obtain rfl : cs = [] := List.eq_nil_of_length_eq_zero (Nat.le_zero.mp h1)
    cases f2 <;> rfl
  | succ f ih =>
    intro cs f2 h1 h2
    cases cs with
    | nil => cases f2 <;> rfl
    | cons c rest =>
      cases f2 with
      | zero => simp at h2
      | succ f2' =>
        simp only [findallAux]
        cases hm : tryMatchAt (c :: rest) with
        | some p =>
          obtain ⟨cap, r⟩ := p
          have hl := tryMatchAt_length _ _ hm
          simp only [List.length_cons] at hl h1 h2
          dsimp only
          rw [ih r f2' (by omega) (by omega)]
        | none =>
          simp only [List.length_cons] at h1 h2
          dsimp only
          exact ih rest f2' (by omega) (by omega)

/-- Advancing over a position with no match. -/
theorem reFindallL_advance (c : Char) (cs : List Char) (h : tryMatchAt (c :: cs) = none) :
    reFindallL (c :: cs) = reFindallL cs := by
  unfold reFindallL
  simp only [List.length_cons, findallAux, h]

/-- Consuming a match: the capture is produced and the scan resumes after
the match. -/
theorem reFindallL_match (cs cap r : List Char) (h : tryMatchAt cs = some (cap, r)) :
    reFindallL cs = cap :: reFindallL r := by
  cases cs with
  | nil => exact absurd h (by simp [tryMatchAt])
  | cons c rest =>
    unfold reFindallL
    simp only [List.length_cons, findallAux, h]
    have hl := tryMatchAt_length _ _ h
    simp only [List.length_cons] at hl
    exact congrArg (cap :: ·) (findallAux_congr rest.length r r.length (by omega) (le_refl _))

/-- No match can start at a non-backtick character. -/
theorem tryMatchAt_head_ne (c : Char) (cs : List Char) (h : (c == btick) = false) :
    tryMatchAt (c :: cs) = none := by
  rcases cs with - | ⟨c2, - | ⟨c3, rest⟩⟩
  · rfl
  · rfl
  · rw [tryMatchAt_cons]
    simp [h]

/-- The scan passes over a backtick-free run of text. -/
theorem segScan (seg : List Char) (rest : List Char) (hb : btickFree seg = true) :
    reFindallL (seg ++ rest) = reFindallL rest := by
  induction seg with
  | nil => simp
  | cons c s ih =>
    simp only [btickFree, List.all_cons, Bool.and_eq_true] at hb
    rw [List.cons_append,
      reFindallL_advance _ _ (tryMatchAt_head_ne _ _ (by simpa using hb.1))]
    exact ih (by simp [btickFree, hb.2])

/-- A backtick-free text contains no match at all. -/
theorem reFindallL_btickFree (cs : List Char) (hb : btickFree cs = true) :
    reFindallL cs = [] := by
  have := segScan cs [] hb
  simpa using this

/-- Whitespace skipping removes an all-whitespace prefix. -/
theorem skipWs_decomp (cs : List Char) :
    ∃ w, cs = w ++ skipWs cs ∧ ∀ x ∈ w, isWsChar x = true := by
  induction cs with
  | nil => exact ⟨[], rfl, by simp⟩
  | cons c cs ih =>
    by_cases hc : isWsChar c = true
    · obtain ⟨w, hw, hall⟩ := ih
      refine ⟨c :: w, ?_, ?_⟩
      · rw [show skipWs (c :: cs) = skipWs cs from by simp [skipWs, hc],
          List.cons_append, ← hw]
      · intro x hx
        rcases List.mem_cons.mp hx with rfl | hx
        · exact hc
        · exact hall x hx
    · refine ⟨[], ?_, by simp⟩
      simp [skipWs, hc]

theorem skipWs_append_allWs (w l : List Char) (hw : ∀ x ∈ w, isWsChar x = true) :
    skipWs (w ++ l) = skipWs l := by
  induction w with
  | nil => rfl
  | cons c w ih =>
    rw [List.cons_append]
    have hc := hw c (List.mem_cons_self ..)
    simp [skipWs, hc, ih fun x hx => hw x (List.mem_cons_of_mem _ hx)]

theorem skipWs_cons_of_not_ws (c : Char) (l : List Char) (hc : isWsChar c = false) :
    skipWs (c :: l) = c :: l := by
  simp [skipWs, hc]

theorem skipWs_append_eq (a b : List Char) :
    skipWs (a ++ b) = if (skipWs a).isEmpty then skipWs b else skipWs a ++ b := by
  induction a with
  | nil => simp [skipWs]
  | cons c a ih =>
    by_cases hc : isWsChar c = true
    · simp [skipWs, hc, ih]
    · have hc' : isWsChar c = false := by simpa using hc
      simp [skipWs, hc']

theorem skipWs_head_mem (l : List Char) (c : Char) (t : List Char)
    (h : skipWs l = c :: t) : c ∈ l := by
  obtain ⟨w, hw, -⟩ := skipWs_decomp l
  rw [hw, h]
  simp

/-- Elements survive `List.drop`. -/
theorem mem_of_mem_stripTag (x : Char) (c : List Char) (h : x ∈ stripTag c) : x ∈ c := by
  unfold stripTag at h
  split at h
  · exact List.drop_subset _ _ h
  · exact h

theorem isPrefixOf_self_append (l t : List Char) : l.isPrefixOf (l ++ t) = true := by
  induction l with
  | nil => simp [List.isPrefixOf]
  | cons c l ih => simp [List.isPrefixOf, ih]

/-- `jsonTag.isPrefixOf` ignores what follows the chunk, when what follows
is nothing or starts with a fence (whose backtick is no tag character). -/
theorem jsonTag_isPrefixOf_append (c rest : List Char)
    (hrest : rest = [] ∨ ∃ u, rest = fenceStr ++ u) :
    jsonTag.isPrefixOf (c ++ rest) = jsonTag.isPrefixOf c := by
  rcases hrest with rfl | ⟨u, rfl⟩
  · rw [List.append_nil]
  · rcases c with - | ⟨a1, - | ⟨a2, - | ⟨a3, - | ⟨a4, c'⟩⟩⟩⟩
    · simp [jsonTag, List.isPrefixOf, fenceStr,
        show ('j' == btick) = false from by decide]
    · simp [jsonTag, List.isPrefixOf, fenceStr,
        show ('s' == btick) = false from by decide]
    · simp [jsonTag, List.isPrefixOf, fenceStr,
        show ('o' == btick) = false from by decide]
    · simp [jsonTag, List.isPrefixOf, fenceStr,
        show ('n' == btick) = false from by decide]
    · simp [jsonTag, List.isPrefixOf]

theorem stripTag_append (c rest : List Char)
    (hrest : rest = [] ∨ ∃ u, rest = fenceStr ++ u) :
    stripTag (c ++ rest) = stripTag c ++ rest := by
  unfold stripTag
  rw [jsonTag_isPrefixOf_append c rest hrest]
  by_cases hp : jsonTag.isPrefixOf c = true
  · rw [if_pos hp, if_pos hp]
    have hlen : 4 ≤ c.length := by
      have := List.IsPrefix.length_le (List.isPrefixOf_iff_prefix.mp hp)
      simpa [jsonTag] using this
    exact List.drop_append_of_le_length hlen
  · rw [if_neg hp, if_neg hp]

/-- No match starts at a fence followed by a backtick-free, brace-free chunk
and then nothing or another fence: the mandatory opening brace never
appears. -/
theorem tryMatchAt_fence_skip (c rest : List Char)
    (hbr : braceFree c = true) (hrest : rest = [] ∨ ∃ u, rest = fenceStr ++ u) :
    tryMatchAt (fenceStr ++ (c ++ rest)) = none := by
  show tryMatchAt (btick :: btick :: btick :: (c ++ rest)) = none
  rw [tryMatchAt_cons, if_pos (by simp), stripTag_append c rest hrest, skipWs_append_eq]
  by_cases he : (skipWs (stripTag c)).isEmpty = true
  · rw [if_pos he]
    rcases hrest with rfl | ⟨u, rfl⟩
    · rfl
    · rfl
  · rw [if_neg he]
    cases hsk : skipWs (stripTag c) with
    | nil => rw [hsk] at he; simp at he
    | cons h0 t =>
      have hmem : h0 ∈ c := mem_of_mem_stripTag h0 c (skipWs_head_mem (stripTag c) h0 t hsk)
      have hne : ¬h0 = '{' := by
        have := List.all_eq_true.mp hbr h0 hmem
        simpa using this
      rw [List.cons_append]
      split
      · rename_i body heq
        injection heq with h1 h2
        exact absurd h1 hne
      · rfl

theorem tryMatchAt_two (c rest : List Char) (hbt : btickFree c = true)
    (hrest : rest = [] ∨ ∃ u, rest = fenceStr ++ u) :
    tryMatchAt (btick :: btick :: (c ++ rest)) = none := by
  cases c with
  | cons c0 c' =>
    have hc0 : (c0 == btick) = false := by
      have := List.all_eq_true.mp hbt c0 (List.mem_cons_self ..)
      simpa using this
    rw [List.cons_append, tryMatchAt_cons]
    simp [hc0]
  | nil =>
    rcases hrest with rfl | ⟨u, rfl⟩
    · rfl
    · rfl

theorem tryMatchAt_one (c rest : List Char) (hbt : btickFree c = true)
    (hrest : rest = [] ∨ ∃ u, rest = fenceStr ++ u) :
    tryMatchAt (btick :: (c ++ rest)) = none := by
  cases c with
  | cons c0 c' =>
    have hc0 : (c0 == btick) = false := by
      have := List.all_eq_true.mp hbt c0 (List.mem_cons_self ..)
      simpa using this
    cases c' with
    | cons c1 c'' =>
      rw [List.cons_append, List.cons_append, tryMatchAt_cons]
      simp [hc0]
    | nil =>
      rcases hrest with rfl | ⟨u, rfl⟩
      · rfl
      · rw [show (btick :: ([c0] ++ (fenceStr ++ u))) =
            btick :: c0 :: btick :: (btick :: btick :: u) from rfl, tryMatchAt_cons]
        simp [hc0]
  | nil =>
    rcases hrest with rfl | ⟨u, rfl⟩
    · rfl
    · rfl

/-- The scan passes whole over a fenced chunk that cannot host a match. -/
theorem skipFence (c rest : List Char) (hbt : btickFree c = true)
    (hbr : braceFree c = true) (hrest : rest = [] ∨ ∃ u, rest = fenceStr ++ u) :
    reFindallL (fenceStr ++ (c ++ rest)) = reFindallL rest := by
  have s0 := tryMatchAt_fence_skip c rest hbr hrest
  rw [show fenceStr ++ (c ++ rest) = btick :: (btick :: btick :: (c ++ rest)) from rfl] at s0 ⊢
  rw [reFindallL_advance _ _ s0,
    reFindallL_advance _ _ (tryMatchAt_two c rest hbt hrest),
    reFindallL_advance _ _ (tryMatchAt_one c rest hbt hrest)]
  exact segScan c rest hbt

/-- The non-greedy body search lands on the final closing brace of a
brace-delimited block: no earlier closing brace is followed by whitespace
and a fence, because the final closing brace always intervenes. -/
theorem findClose_spec (mid w2 rest : List Char) (hmid : btickFree mid = true)
    (hw2 : ∀ x ∈ w2, isWsChar x = true) :
    findClose (mid ++ ('}' :: (w2 ++ (fenceStr ++ rest)))) = some (mid ++ ['}'], rest) := by
  induction mid with
  | nil =>
    simp only [List.nil_append]
    have hsw : skipWs (w2 ++ (fenceStr ++ rest)) = fenceStr ++ rest := by
      rw [skipWs_append_allWs w2 _ hw2]
      rfl
    have hf : fenceAfterWs (w2 ++ (fenceStr ++ rest)) = true := by
      unfold fenceAfterWs
      rw [hsw]
      exact isPrefixOf_self_append fenceStr rest
    have hd : dropFenceAfterWs (w2 ++ (fenceStr ++ rest)) = rest := by
      unfold dropFenceAfterWs
      rw [hsw]
      rfl
    simp [findClose, hf, hd]
  | cons m mid' ih =>
    have hm' : btickFree mid' = true := by
      simp only [btickFree, List.all_cons, Bool.and_eq_true] at hmid
      exact hmid.2
    rw [List.cons_append]
    have hcond : (m == '}' &&
        fenceAfterWs (mid' ++ ('}' :: (w2 ++ (fenceStr ++ rest))))) = false := by
      by_cases hm : m = '}'
      · have hfw : fenceAfterWs (mid' ++ ('}' :: (w2 ++ (fenceStr ++ rest)))) = false := by
          unfold fenceAfterWs
          rw [skipWs_append_eq]
          by_cases he : (skipWs mid').isEmpty = true
          · rw [if_pos he, skipWs_cons_of_not_ws '}' _ (by decide)]
            simp [List.isPrefixOf, fenceStr, show (btick == '}') = false from by decide]
          · rw [if_neg he]
            cases hsk : skipWs mid' with
            | nil => rw [hsk] at he; simp at he
            | cons h0 t =>
              have hh0 : ¬h0 = btick := by
                have hmem := skipWs_head_mem mid' h0 t hsk
                have := List.all_eq_true.mp hm' h0 hmem
                simpa using this
              rw [List.cons_append]
              simp [List.isPrefixOf, fenceStr,
                beq_eq_false_iff_ne.mpr fun e => hh0 e.symm]
        simp [hfw]
      · simp [beq_eq_false_iff_ne.mpr hm]
    simp only [findClose, hcond, Bool.false_eq_true, if_false]
    rw [ih hm']
    rfl

/-- Decomposition of a block recognised by `blockCapture`: after the
optional tag, it is whitespace, then the brace-delimited capture, then
whitespace, and the capture is an open brace, a middle, and a close brace. -/
theorem blockCapture_decomp (blk cap : List Char) (h : blockCapture blk = some cap) :
    ∃ w1 mid w2,
      stripTag blk = w1 ++ (cap ++ w2) ∧
      (∀ x ∈ w1, isWsChar x = true) ∧ (∀ x ∈ w2, isWsChar x = true) ∧
      cap = '{' :: (mid ++ ['}']) := by
  unfold blockCapture at h
  dsimp only at h
  split at h
  · rename_i t heq hlast
    obtain rfl := Option.some.inj h
    obtain ⟨w1, hw1, hallw1⟩ := skipWs_decomp (stripTag blk)
    obtain ⟨w, hw, hallw⟩ := skipWs_decomp (skipWs (stripTag blk)).reverse
    have hc2body : skipWs (stripTag blk) =
        (skipWs (skipWs (stripTag blk)).reverse).reverse ++ w.reverse := by
      have h1 := congrArg List.reverse hw
      rw [List.reverse_reverse] at h1
      exact h1.trans (List.reverse_append w (skipWs (skipWs (stripTag blk)).reverse))
    have hbody_ne : (skipWs (skipWs (stripTag blk)).reverse).reverse ≠ [] := by
      intro hb
      rw [hb] at hlast
      simp at hlast
    obtain ⟨b0, body', hbody⟩ := List.exists_cons_of_ne_nil hbody_ne
    rw [hbody] at hc2body hlast ⊢
    have hb0 : b0 = '{' := by
      rw [heq, List.cons_append] at hc2body
      exact (List.cons.injEq .. ▸ hc2body).1.symm
    subst hb0
    rcases List.eq_nil_or_concat body' with rfl | ⟨mid, lastc, hcat⟩
    · simp at hlast
    · rw [List.concat_eq_append] at hcat
      subst hcat
      have hlastc : lastc = '}' := by
        rw [show ('{' :: (mid ++ [lastc]) : List Char) = ('{' :: mid) ++ [lastc] from by simp,
          List.getLast?_concat] at hlast
        exact Option.some.inj hlast
      subst hlastc
      refine ⟨w1, mid, w.reverse, ?_, hallw1, ?_, rfl⟩
      · rw [hw1, hc2body]
      · intro x hx
        exact hallw x (List.mem_reverse.mp hx)
  · exact absurd h (by simp)

/-- Freeness of a capture's middle, inherited from the block. -/
theorem btickFree_mid_of_decomp (blk cap w1 mid w2 : List Char)
    (hbt : btickFree blk = true) (hdec : stripTag blk = w1 ++ (cap ++ w2))
    (hcapeq : cap = '{' :: (mid ++ ['}'])) : btickFree mid = true := by
  rw [btickFree, List.all_eq_true]
  intro x hx
  have hxcap : x ∈ cap := by
    rw [hcapeq]
    simp [hx]
  have hxstrip : x ∈ stripTag blk := by
    rw [hdec]
    simp [hxcap]
  exact List.all_eq_true.mp hbt x (mem_of_mem_stripTag x blk hxstrip)

/-- The whole-pattern match over a fence enclosing a recognised block:
capture and continuation are exactly the block-local ones. -/
theorem tryMatchAt_fence_block (blk cap rest : List Char) (hbt : btickFree blk = true)
    (hcap : blockCapture blk = some cap) :
    tryMatchAt (fenceStr ++ (blk ++ (fenceStr ++ rest))) = some (cap, rest) := by
  obtain ⟨w1, mid, w2, hdec, hw1, hw2, hcapeq⟩ := blockCapture_decomp blk cap hcap
  have hmid : btickFree mid = true := btickFree_mid_of_decomp blk cap w1 mid w2 hbt hdec hcapeq
  show tryMatchAt (btick :: btick :: btick :: (blk ++ (fenceStr ++ rest))) = some (cap, rest)
  rw [tryMatchAt_cons, if_pos (by simp)]
  have hscrut : skipWs (stripTag (blk ++ (fenceStr ++ rest))) =
      '{' :: (mid ++ ('}' :: (w2 ++ (fenceStr ++ rest)))) := by
    rw [stripTag_append blk (fenceStr ++ rest) (Or.inr ⟨rest, rfl⟩), hdec,
      List.append_assoc w1 (cap ++ w2) (fenceStr ++ rest), skipWs_append_allWs w1 _ hw1,
      hcapeq,
      show (('{' :: (mid ++ ['}'])) ++ w2) ++ (fenceStr ++ rest) =
        '{' :: (mid ++ ('}' :: (w2 ++ (fenceStr ++ rest)))) from by simp]
    exact skipWs_cons_of_not_ws '{' _ (by decide)
  rw [hscrut]
  show (match findClose (mid ++ ('}' :: (w2 ++ (fenceStr ++ rest)))) with
      | some (b, r) => some ('{' :: b, r)
      | none => none) = some (cap, rest)
  rw [findClose_spec mid w2 rest hmid hw2, hcapeq]

/-- A chunk sequence starts with nothing or a fence. -/
theorem fencedConcat_shape (ps : List (List Char × List Char)) :
    fencedConcat ps = [] ∨ ∃ u, fencedConcat ps = fenceStr ++ u := by
  cases ps with
  | nil => exact Or.inl rfl
  | cons p ps =>
    obtain ⟨blk, seg⟩ := p
    exact Or.inr ⟨blk ++ (fenceStr ++ (seg ++ fencedConcat ps)), by
      simp [fencedConcat, List.append_assoc]⟩

/-- The global scan over an assembled body equals the block-local captures,
in document order, provided prose between fences carries no backtick or
opening brace and every block is backtick-free and either recognised or
brace-free. -/
theorem reFindallL_fencedConcat (pairs : List (List Char × List Char))
    (h : ∀ p ∈ pairs, btickFree p.1 = true ∧ btickFree p.2 = true ∧ braceFree p.2 = true ∧
      (blockCapture p.1 = none → braceFree p.1 = true)) :
    reFindallL (fencedConcat pairs) = pairs.filterMap fun p => blockCapture p.1 := by
  induction pairs with
  | nil => rfl
  | cons p ps ih =>
    obtain ⟨blk, seg⟩ := p
    obtain ⟨hb, hsb, hsl, hbr⟩ := h (blk, seg) (List.mem_cons_self ..)
    have hps := fun q hq => h q (List.mem_cons_of_mem _ hq)
    rw [show fencedConcat ((blk, seg) :: ps) =
        fenceStr ++ (blk ++ (fenceStr ++ (seg ++ fencedConcat ps))) from by
      simp [fencedConcat, List.append_assoc]]
    cases hcap : blockCapture blk with
    | some cap =>
      rw [reFindallL_match _ cap (seg ++ fencedConcat ps)
        (tryMatchAt_fence_block blk cap (seg ++ fencedConcat ps) hb hcap)]
      rw [segScan seg _ hsb, ih hps]
      simp [List.filterMap_cons, hcap]
    | none =>
      rw [skipFence blk (fenceStr ++ (seg ++ fencedConcat ps)) hb (hbr hcap)
        (Or.inr ⟨_, rfl⟩)]
      rw [skipFence seg (fencedConcat ps) hsb hsl (fencedConcat_shape ps)]
      rw [ih hps]
      simp [List.filterMap_cons, hcap]

/-! ### Helper lemmas about the renderer -/

/-- A successful render: with all five fields present, `build_slide` returns
exactly the `renderedDoc` shape list. -/
theorem build_slide_ok (sections : Sections) (a : Bytes → Except PyErr Unit)
    (now cust : String) (acc : Nat × Nat × Nat) (lg : Option Bytes)
    (cv bs scc rk cp : SecVal)
    (h1 : sections.lookup "corporate_vision" = some cv)
    (h2 : sections.lookup "business_strategies" = some bs)
    (h3 : sections.lookup "supply_chain_contribution" = some scc)
    (h4 : sections.lookup "risks_of_supply_chain_failure" = some rk)
    (h5 : sections.lookup "critical_capabilities" = some cp) :
    build_slide a now cust acc sections lg =
      .ok (renderedDoc a now cust acc cv bs scc rk cp lg) := by
  simp only [build_slide, getItem, h1, h2, h3, h4, h5]
  rfl

/-- A failed render: with some required field absent, `build_slide` raises a
`KeyError` on a required field that is indeed absent. -/
theorem build_slide_missing (sections : Sections) (a : Bytes → Except PyErr Unit)
    (now cust : String) (acc : Nat × Nat × Nat) (lg : Option Bytes)
    (f : String) (hf : f ∈ requiredFields) (hnone : sections.lookup f = none) :
    ∃ k, k ∈ requiredFields ∧ sections.lookup k = none ∧
      build_slide a now cust acc sections lg = .error (.keyError k) := by
  cases h1 : sections.lookup "corporate_vision" with
  | none =>
    refine ⟨"corporate_vision", by simp [requiredFields], h1, ?_⟩
    simp only [build_slide, getItem, h1]; rfl
  | some cv =>
  cases h2 : sections.lookup "business_strategies" with
  | none =>
    refine ⟨"business_strategies", by simp [requiredFields], h2, ?_⟩
    simp only [build_slide, getItem, h1, h2]; rfl
  | some bs =>
  cases h3 : sections.lookup "supply_chain_contribution" with
  | none =>
    refine ⟨"supply_chain_contribution", by simp [requiredFields], h3, ?_⟩
    simp only [build_slide, getItem, h1, h2, h3]; rfl
  | some scc =>
  cases h4 : sections.lookup "risks_of_supply_chain_failure" with
  | none =>
    refine ⟨"risks_of_supply_chain_failure", by simp [requiredFields], h4, ?_⟩
    simp only [build_slide, getItem, h1, h2, h3, h4]; rfl
  | some rk =>
  cases h5 : sections.lookup "critical_capabilities" with
  | none =>
    refine ⟨"critical_capabilities", by simp [requiredFields], h5, ?_⟩
    simp only [build_slide, getItem, h1, h2, h3, h4, h5]; rfl
  | some cp =>
    exfalso
    simp only [requiredFields, List.mem_cons, List.mem_singleton] at hf
    rcases hf with rfl | rfl | rfl | rfl | rfl | h
    · exact Option.noConfusion (hnone ▸ h1)
    · exact Option.noConfusion (hnone ▸ h2)
    · exact Option.noConfusion (hnone ▸ h3)
    · exact Option.noConfusion (hnone ▸ h4)
    · exact Option.noConfusion (hnone ▸ h5)
    · exact absurd h (List.not_mem_nil f)

/-- The row title texts and offsets of any rendered document. -/
theorem titleInfo_renderedDoc (a : Bytes → Except PyErr Unit) (now cust : String)
    (acc : Nat × Nat × Nat) (cv bs scc rk cp : SecVal) (lg : Option Bytes) :
    titleInfo (renderedDoc a now cust acc cv bs scc rk cp lg) =
      [("Corporate Vision", 1230), ("Business Strategies", 2630),
       ("Supply Chain Contribution", 4030), ("Risks of Supply Chain Failure", 5430),
       ("Critical Capabilities", 6830)] := by
  cases lg with
  | none => rfl
  | some d =>
    cases h : a d with
    | ok u => simp only [renderedDoc, add_logo, h]; rfl
    | error e => simp only [renderedDoc, add_logo, h]; rfl

/-- The rail label texts and offsets of any rendered document. -/
theorem railInfo_renderedDoc (a : Bytes → Except PyErr Unit) (now cust : String)
    (acc : Nat × Nat × Nat) (cv bs scc rk cp : SecVal) (lg : Option Bytes) :
    railInfo (renderedDoc a now cust acc cv bs scc rk cp lg) =
      [("Corporate\nVision", 1200), ("Business\nStrategies", 2600),
       ("Supply Chain\nContribution", 4000), ("Risks of\nSupply Chain\nFailure", 5400),
       ("Critical\nCapabilities", 6800)] := by
  cases lg with
  | none => rfl
  | some d =>
    cases h : a d with
    | ok u => simp only [renderedDoc, add_logo, h]; rfl
    | error e => simp only [renderedDoc, add_logo, h]; rfl

/-- The body boxes of any rendered document, in row order. -/
theorem bodyBoxes_renderedDoc (a : Bytes → Except PyErr Unit) (now cust : String)
    (acc : Nat × Nat × Nat) (cv bs scc rk cp : SecVal) (lg : Option Bytes) :
    bodyBoxes (renderedDoc a now cust acc cv bs scc rk cp lg) =
      [bodyParas cv, bodyParas (bulletize bs), bodyParas (bulletize scc),
       bodyParas (bulletize rk), bodyParas (bulletize cp)] := by
  cases lg with
  | none => rfl
  | some d =>
    cases h : a d with
    | ok u => simp only [renderedDoc, add_logo, h]; rfl
    | error e => simp only [renderedDoc, add_logo, h]; rfl

/-- The body box offsets of any rendered document. -/
theorem bodyYs_renderedDoc (a : Bytes → Except PyErr Unit) (now cust : String)
    (acc : Nat × Nat × Nat) (cv bs scc rk cp : SecVal) (lg : Option Bytes) :
    bodyYs (renderedDoc a now cust acc cv bs scc rk cp lg) =
      [1780, 3180, 4580, 5980, 7380] := by
  cases lg with
  | none => rfl
  | some d =>
    cases h : a d with
    | ok u => simp only [renderedDoc, add_logo, h]; rfl
    | error e => simp only [renderedDoc, add_logo, h]; rfl

/-- The rule offsets of any rendered document. -/
theorem ruleYs_renderedDoc (a : Bytes → Except PyErr Unit) (now cust : String)
    (acc : Nat × Nat × Nat) (cv bs scc rk cp : SecVal) (lg : Option Bytes) :
    ruleYs (renderedDoc a now cust acc cv bs scc rk cp lg) =
      [2650, 4050, 5450, 6850, 8250] := by
  cases lg with
  | none => rfl
  | some d =>
    cases h : a d with
    | ok u => simp only [renderedDoc, add_logo, h]; rfl
    | error e => simp only [renderedDoc, add_logo, h]; rfl

/-- The accent bar of any rendered document carries the caller's color. -/
theorem vbarFills_renderedDoc (a : Bytes → Except PyErr Unit) (now cust : String)
    (acc : Nat × Nat × Nat) (cv bs scc rk cp : SecVal) (lg : Option Bytes) :
    vbarFills (renderedDoc a now cust acc cv bs scc rk cp lg) = [acc] := by
  cases lg with
  | none => rfl
  | some d =>
    cases h : a d with
    | ok u => simp only [renderedDoc, add_logo, h]; rfl
    | error e => simp only [renderedDoc, add_logo, h]; rfl

/-- Dropping the pictures from a rendered document yields the logo-free
render: the logo influences nothing else. -/
theorem filter_notPicture_renderedDoc (a : Bytes → Except PyErr Unit) (now cust : String)
    (acc : Nat × Nat × Nat) (cv bs scc rk cp : SecVal) (lg : Option Bytes) :
    (renderedDoc a now cust acc cv bs scc rk cp lg).filter notPicture =
      renderedDoc a now cust acc cv bs scc rk cp none := by
  cases lg with
  | none => rfl
  | some d =>
    cases h : a d with
    | ok u => simp only [renderedDoc, add_logo, h]; rfl
    | error e => simp only [renderedDoc, add_logo, h]; rfl

/-- An all-stop oracle used to instantiate abstract parameters in witnesses. -/
def exAddPicture : Bytes → Except PyErr Unit := fun _ => .ok ()

/-- A remote-call oracle that always fails, for witnesses. -/
def exCallDown : String → String → Except PyErr String :=
  fun _ _ => .error (.transportError "connection refused")

/-- A record-level parse oracle that never parses, for witnesses. -/
def exJlNone : String → Option Sections := fun _ => none

/-! ### Claims C1, C2, C8 (content provider) -/

/-- C1: for every customer name in the static preset table, PRESET mode
(`"No-LLM (preset/smart template)"`) returns the stored record verbatim,
whatever the credential (and the abstract network/parse oracles, which this
path never consults — `generate_sections` is a pure function of its
arguments, hence deterministic). -/
theorem C1_preset_hit (ra : Bool) (jl : String → Option Sections)
    (cA cB : String → String → Except PyErr String) (name key : String) (rec : Sections)
    (h : PRESETS.lookup name = some rec) :
    generate_sections ra jl cA cB name "No-LLM (preset/smart template)" key = .ok rec := by
  simp only [generate_sections, h, if_pos]

/-- Witness for C1 at the one stored customer, with a non-empty credential
and inert oracles. -/
theorem C1_preset_hit_witness :
    PRESETS.lookup "Rugs USA" = some rugsUSAPreset ∧
    generate_sections false exJlNone exCallDown exCallDown "Rugs USA"
      "No-LLM (preset/smart template)" "sk-anything" = .ok rugsUSAPreset :=
  ⟨rfl, C1_preset_hit false exJlNone exCallDown exCallDown "Rugs USA" "sk-anything"
    rugsUSAPreset rfl⟩

/-- C2: for every customer name absent from the preset table, PRESET mode
returns the generic fallback record: its `corporate_vision` is the input
name followed by the fixed suffix (so it contains the name verbatim) and its
four bullet fields are exactly the fixed generic lists.  The result is `ok`
for arbitrary oracles: this path cannot fail and never consults the network
parameters. -/
theorem C2_preset_fallback (ra : Bool) (jl : String → Option Sections)
    (cA cB : String → String → Except PyErr String) (name key : String)
    (h : PRESETS.lookup name = none) :
    generate_sections ra jl cA cB name "No-LLM (preset/smart template)" key =
      .ok (genericFallback name) ∧
    (genericFallback name).lookup "corporate_vision" =
      some (.s (name ++ genericVisionSuffix)) ∧
    (∃ pre post, name ++ genericVisionSuffix = pre ++ name ++ post) ∧
    (genericFallback name).lookup "business_strategies" = some (.l genericBusinessStrategies) ∧
    (genericFallback name).lookup "supply_chain_contribution" =
      some (.l genericSupplyChainContribution) ∧
    (genericFallback name).lookup "risks_of_supply_chain_failure" = some (.l genericRisks) ∧
    (genericFallback name).lookup "critical_capabilities" =
      some (.l genericCriticalCapabilities) := by
  refine ⟨?_, rfl, ⟨"", genericVisionSuffix, ?_⟩, rfl, rfl, rfl, rfl⟩
  · simp only [generate_sections, h, if_pos]
  · cases name
    rfl

/-- Witness for C2 at a name with no stored entry. -/
theorem C2_preset_fallback_witness :
    PRESETS.lookup "Acme Co" = none ∧
    generate_sections true exJlNone exCallDown exCallDown "Acme Co"
      "No-LLM (preset/smart template)" "" = .ok (genericFallback "Acme Co") :=
  ⟨rfl, (C2_preset_fallback true exJlNone exCallDown exCallDown "Acme Co" "" rfl).1⟩

/-- C8: in OpenAI or Anthropic mode with the empty credential (the UI's
value when none is supplied), `generate_sections` raises the
missing-key `RuntimeError` — the claim's `MissingCredential` — for every
customer name, independently of the network oracles, which are never
invoked. -/
theorem C8_missing_credential (jl : String → Option Sections)
    (cA cB : String → String → Except PyErr String) (name : String) :
    generate_sections true jl cA cB name "OpenAI" "" =
      .error (.runtimeError "Missing OpenAI API key.") ∧
    generate_sections true jl cA cB name "Anthropic" "" =
      .error (.runtimeError "Missing Anthropic API key.") :=
  ⟨rfl, rfl⟩

/-! ### Claims C4–C7 and C9 (renderer) -/

/-- Bulleted paragraphs strip back to their source lines. -/
theorem bulletLines_map (xs : List String) :
    bulletLines (xs.map fun line =>
      (⟨"• " ++ line, some 14, false, none, some 2, none⟩ : Para)) = xs := by
  induction xs with
  | nil => rfl
  | cons x xs ih =>
    obtain ⟨d⟩ := x
    simp only [List.map_cons, bulletLines, List.filterMap_cons] at ih ⊢
    rw [ih]
    rfl

/-- Re-reading the body box of a bulleted row recovers the field's lines,
for every list — the empty list renders as a single empty paragraph, which
carries no bullet glyph and is therefore read back as no bullets. -/
theorem bulletLines_bodyParas (xs : List String) :
    bulletLines (bodyParas (bulletize (.l xs))) = xs := by
  cases xs with
  | nil => rfl
  | cons x xs =>
    show bulletLines (((x :: xs).map fun s => "• " ++ s).map
      fun line => (⟨line, some 14, false, none, some 2, none⟩ : Para)) = x :: xs
    rw [List.map_map]
    simpa [Function.comp] using bulletLines_map (x :: xs)

/-- The row titles of any rendered document, in order. -/
theorem titleTexts_renderedDoc (a : Bytes → Except PyErr Unit) (now cust : String)
    (acc : Nat × Nat × Nat) (cv bs scc rk cp : SecVal) (lg : Option Bytes) :
    titleTexts (renderedDoc a now cust acc cv bs scc rk cp lg) =
      ["Corporate Vision", "Business Strategies", "Supply Chain Contribution",
       "Risks of Supply Chain Failure", "Critical Capabilities"] := by
  cases lg with
  | none => rfl
  | some d =>
    cases h : a d with
    | ok u => simp only [renderedDoc, add_logo, h]; rfl
    | error e => simp only [renderedDoc, add_logo, h]; rfl

/-- C4: rendering a well-formed ContentRecord and re-reading the produced
document recovers the five section titles in row order, the vision
paragraph, and the four bullet lists (bullet glyphs and font metadata
discarded by the reader). -/
theorem C4_roundtrip (a : Bytes → Except PyErr Unit) (now cust : String)
    (acc : Nat × Nat × Nat) (sections : Sections) (lg : Option Bytes)
    (v : String) (bs scc rk cp : List String)
    (h1 : sections.lookup "corporate_vision" = some (.s v))
    (h2 : sections.lookup "business_strategies" = some (.l bs))
    (h3 : sections.lookup "supply_chain_contribution" = some (.l scc))
    (h4 : sections.lookup "risks_of_supply_chain_failure" = some (.l rk))
    (h5 : sections.lookup "critical_capabilities" = some (.l cp)) :
    ∃ doc, build_slide a now cust acc sections lg = .ok doc ∧
      recoverRecord doc = some
        [("Corporate Vision", .s v), ("Business Strategies", .l bs),
         ("Supply Chain Contribution", .l scc), ("Risks of Supply Chain Failure", .l rk),
         ("Critical Capabilities", .l cp)] := by
  refine ⟨_, build_slide_ok sections a now cust acc lg _ _ _ _ _ h1 h2 h3 h4 h5, ?_⟩
  unfold recoverRecord
  rw [titleTexts_renderedDoc, bodyBoxes_renderedDoc]
  dsimp only []
  simp only [bulletLines_bodyParas]
  rfl

/-- Witness for C4 at a concrete well-formed record. -/
theorem C4_roundtrip_witness :
    ∃ doc, build_slide exAddPicture "Oct 10, 2025" "Acme Co" (255, 0, 0)
        (genericFallback "Acme Co") none = .ok doc ∧
      recoverRecord doc = some
        [("Corporate Vision", .s ("Acme Co" ++ genericVisionSuffix)),
         ("Business Strategies", .l genericBusinessStrategies),
         ("Supply Chain Contribution", .l genericSupplyChainContribution),
         ("Risks of Supply Chain Failure", .l genericRisks),
         ("Critical Capabilities", .l genericCriticalCapabilities)] :=
  C4_roundtrip exAddPicture "Oct 10, 2025" "Acme Co" (255, 0, 0)
    (genericFallback "Acme Co") none _ _ _ _ _ rfl rfl rfl rfl rfl

/-- C5 (amended): a well-formed record renders exactly five rows in the
fixed order, with (in thousandths of an inch, row offset
`y = 1250 + 1400 * i`, i.e. `1.25 + 1.4 * i` inches): the rail label at
`y - 50`, the title at `y - 20`, the body at `y + 530`, and the horizontal
rule exactly at the row's bottom edge `y + 1400 = 1250 + 1400 * (i + 1)`. -/
theorem C5_row_layout (a : Bytes → Except PyErr Unit) (now cust : String)
    (acc : Nat × Nat × Nat) (sections : Sections) (lg : Option Bytes)
    (cv bs scc rk cp : SecVal)
    (h1 : sections.lookup "corporate_vision" = some cv)
    (h2 : sections.lookup "business_strategies" = some bs)
    (h3 : sections.lookup "supply_chain_contribution" = some scc)
    (h4 : sections.lookup "risks_of_supply_chain_failure" = some rk)
    (h5 : sections.lookup "critical_capabilities" = some cp) :
    build_slide a now cust acc sections lg =
      .ok (renderedDoc a now cust acc cv bs scc rk cp lg) ∧
    railInfo (renderedDoc a now cust acc cv bs scc rk cp lg) =
      [("Corporate\nVision", 1200), ("Business\nStrategies", 2600),
       ("Supply Chain\nContribution", 4000), ("Risks of\nSupply Chain\nFailure", 5400),
       ("Critical\nCapabilities", 6800)] ∧
    titleInfo (renderedDoc a now cust acc cv bs scc rk cp lg) =
      [("Corporate Vision", 1230), ("Business Strategies", 2630),
       ("Supply Chain Contribution", 4030), ("Risks of Supply Chain Failure", 5430),
       ("Critical Capabilities", 6830)] ∧
    bodyYs (renderedDoc a now cust acc cv bs scc rk cp lg) =
      [1780, 3180, 4580, 5980, 7380] ∧
    ruleYs (renderedDoc a now cust acc cv bs scc rk cp lg) =
      [2650, 4050, 5450, 6850, 8250] :=
  ⟨build_slide_ok sections a now cust acc lg cv bs scc rk cp h1 h2 h3 h4 h5,
   railInfo_renderedDoc a now cust acc cv bs scc rk cp lg,
   titleInfo_renderedDoc a now cust acc cv bs scc rk cp lg,
   bodyYs_renderedDoc a now cust acc cv bs scc rk cp lg,
   ruleYs_renderedDoc a now cust acc cv bs scc rk cp lg⟩

/-- Witness for the amended C5 at a concrete record. -/
theorem C5_row_layout_witness :
    build_slide exAddPicture "Oct 10, 2025" "Acme Co" (8, 87, 74)
        (genericFallback "Acme Co") none =
      .ok (renderedDoc exAddPicture "Oct 10, 2025" "Acme Co" (8, 87, 74)
        (.s ("Acme Co" ++ genericVisionSuffix)) (.l genericBusinessStrategies)
        (.l genericSupplyChainContribution) (.l genericRisks)
        (.l genericCriticalCapabilities) none) ∧
    railInfo (renderedDoc exAddPicture "Oct 10, 2025" "Acme Co" (8, 87, 74)
        (.s ("Acme Co" ++ genericVisionSuffix)) (.l genericBusinessStrategies)
        (.l genericSupplyChainContribution) (.l genericRisks)
        (.l genericCriticalCapabilities) none) =
      [("Corporate\nVision", 1200), ("Business\nStrategies", 2600),
       ("Supply Chain\nContribution", 4000), ("Risks of\nSupply Chain\nFailure", 5400),
       ("Critical\nCapabilities", 6800)] ∧
    titleInfo (renderedDoc exAddPicture "Oct 10, 2025" "Acme Co" (8, 87, 74)
        (.s ("Acme Co" ++ genericVisionSuffix)) (.l genericBusinessStrategies)
        (.l genericSupplyChainContribution) (.l genericRisks)
        (.l genericCriticalCapabilities) none) =
      [("Corporate Vision", 1230), ("Business Strategies", 2630),
       ("Supply Chain Contribution", 4030), ("Risks of Supply Chain Failure", 5430),
       ("Critical Capabilities", 6830)] ∧
    bodyYs (renderedDoc exAddPicture "Oct 10, 2025" "Acme Co" (8, 87, 74)
        (.s ("Acme Co" ++ genericVisionSuffix)) (.l genericBusinessStrategies)
        (.l genericSupplyChainContribution) (.l genericRisks)
        (.l genericCriticalCapabilities) none) =
      [1780, 3180, 4580, 5980, 7380] ∧
    ruleYs (renderedDoc exAddPicture "Oct 10, 2025" "Acme Co" (8, 87, 74)
        (.s ("Acme Co" ++ genericVisionSuffix)) (.l genericBusinessStrategies)
        (.l genericSupplyChainContribution) (.l genericRisks)
        (.l genericCriticalCapabilities) none) =
      [2650, 4050, 5450, 6850, 8250] :=
  C5_row_layout exAddPicture "Oct 10, 2025" "Acme Co" (8, 87, 74)
    (genericFallback "Acme Co") none _ _ _ _ _ rfl rfl rfl rfl rfl

/-- C5 counterexample: the claim places the rail label, title and body at
exactly `y = 1.25 + 1.4 * i` inches (`1250 + 1400 * i` milli-inches); but on
a concrete render the rail labels sit at `1200 + 1400 * i` (i.e. `y - 0.05`),
so the rail-label offsets are not the claimed ones. -/
theorem C5_counterexample :
    (build_slide exAddPicture "Oct 10, 2025" "Rugs USA" (8, 87, 74)
        rugsUSAPreset none).map railInfo =
      .ok [("Corporate\nVision", 1200), ("Business\nStrategies", 2600),
           ("Supply Chain\nContribution", 4000), ("Risks of\nSupply Chain\nFailure", 5400),
           ("Critical\nCapabilities", 6800)] ∧
    (build_slide exAddPicture "Oct 10, 2025" "Rugs USA" (8, 87, 74)
        rugsUSAPreset none).map railInfo ≠
      .ok [("Corporate\nVision", 1250), ("Business\nStrategies", 2650),
           ("Supply Chain\nContribution", 4050), ("Risks of\nSupply Chain\nFailure", 5450),
           ("Critical\nCapabilities", 6850)] := by
  have hA : (build_slide exAddPicture "Oct 10, 2025" "Rugs USA" (8, 87, 74)
      rugsUSAPreset none).map railInfo =
      .ok [("Corporate\nVision", 1200), ("Business\nStrategies", 2600),
           ("Supply Chain\nContribution", 4000), ("Risks of\nSupply Chain\nFailure", 5400),
           ("Critical\nCapabilities", 6800)] := rfl
  refine ⟨hA, ?_⟩
  intro hcon
  rw [hA] at hcon
  exact absurd (Except.ok.inj hcon) (by decide)

/-- C6: a record from which a required field is absent makes `build_slide`
raise the `KeyError` of an absent required field — the `IncompleteContent`
failure — and produce no document. -/
theorem C6_missing_field (a : Bytes → Except PyErr Unit) (now cust : String)
    (acc : Nat × Nat × Nat) (sections : Sections) (lg : Option Bytes)
    (f : String) (hf : f ∈ requiredFields) (hnone : sections.lookup f = none) :
    ∃ k, k ∈ requiredFields ∧ sections.lookup k = none ∧
      build_slide a now cust acc sections lg = .error (.keyError k) :=
  build_slide_missing sections a now cust acc lg f hf hnone

/-- A record with `corporate_vision` absent, for witnesses. -/
def exNoVision : Sections :=
  [ ("business_strategies", .l genericBusinessStrategies),
    ("supply_chain_contribution", .l genericSupplyChainContribution),
    ("risks_of_supply_chain_failure", .l genericRisks),
    ("critical_capabilities", .l genericCriticalCapabilities) ]

/-- Witness for C6 at a record missing `corporate_vision`. -/
theorem C6_missing_field_witness :
    ∃ k, k ∈ requiredFields ∧ exNoVision.lookup k = none ∧
      build_slide exAddPicture "Oct 10, 2025" "Acme Co" (8, 87, 74) exNoVision none =
        .error (.keyError k) :=
  C6_missing_field exAddPicture "Oct 10, 2025" "Acme Co" (8, 87, 74) exNoVision none
    "corporate_vision" (by simp [requiredFields]) rfl

/-- A hex digit's value is below 16. -/
theorem hexDigitVal_le (c : Char) (d : Nat) (h : hexDigitVal c = some d) : d ≤ 15 := by
  unfold hexDigitVal at h
  simp only [] at h
  split_ifs at h with h1 h2 h3
  · have h9 := Option.some.inj h
    omega
  · have h9 := Option.some.inj h
    omega
  · have h9 := Option.some.inj h
    omega

/-- A hex digit is not the `#` character, so `lstrip` never eats it. -/
theorem hexDigitVal_ne_hash (c : Char) (d : Nat) (h : hexDigitVal c = some d) :
    (c == '#') = false := by
  by_cases e : c = '#'
  · subst e
    rw [show hexDigitVal '#' = none from rfl] at h
    exact absurd h (by simp)
  · exact beq_eq_false_iff_ne.mpr e

/-- C7: a `#RRGGBB` hex string (six hex digits) converts to the triple of
its three channel byte values, each at most 255; the accent bar of a
successful render is filled with exactly the accent triple handed to
`build_slide`; and `"#FF0000"` converts to `(255, 0, 0)`. -/
theorem C7_accent_color :
    (∀ (c1 c2 c3 c4 c5 c6 : Char) (d1 d2 d3 d4 d5 d6 : Nat),
      hexDigitVal c1 = some d1 → hexDigitVal c2 = some d2 →
      hexDigitVal c3 = some d3 → hexDigitVal c4 = some d4 →
      hexDigitVal c5 = some d5 → hexDigitVal c6 = some d6 →
      rgb_hex_to_tuple (String.mk ['#', c1, c2, c3, c4, c5, c6]) =
        some (16 * d1 + d2, 16 * d3 + d4, 16 * d5 + d6) ∧
      16 * d1 + d2 ≤ 255 ∧ 16 * d3 + d4 ≤ 255 ∧ 16 * d5 + d6 ≤ 255) ∧
    (∀ (a : Bytes → Except PyErr Unit) (now cust : String) (accent : Nat × Nat × Nat)
      (sections : Sections) (lg : Option Bytes) (cv bs scc rk cp : SecVal),
      sections.lookup "corporate_vision" = some cv →
      sections.lookup "business_strategies" = some bs →
      sections.lookup "supply_chain_contribution" = some scc →
      sections.lookup "risks_of_supply_chain_failure" = some rk →
      sections.lookup "critical_capabilities" = some cp →
      ∃ doc, build_slide a now cust accent sections lg = .ok doc ∧
        vbarFills doc = [accent]) ∧
    rgb_hex_to_tuple "#FF0000" = some (255, 0, 0) := by
  refine ⟨?_, ?_, rfl⟩
  · intro c1 c2 c3 c4 c5 c6 d1 d2 d3 d4 d5 d6 h1 h2 h3 h4 h5 h6
    refine ⟨?_, ?_, ?_, ?_⟩
    · simp only [rgb_hex_to_tuple, List.dropWhile_cons, hexDigitVal_ne_hash c1 d1 h1]
      simp only [show (('#' : Char) == '#') = true from rfl, if_true, if_false,
        Bool.false_eq_true]
      simp only [pyIntHex, List.foldl, h1, h2, h3, h4, h5, h6, List.take, List.drop]
      norm_num
    · have b1 := hexDigitVal_le c1 d1 h1
      have b2 := hexDigitVal_le c2 d2 h2
      omega
    · have b1 := hexDigitVal_le c3 d3 h3
      have b2 := hexDigitVal_le c4 d4 h4
      omega
    · have b1 := hexDigitVal_le c5 d5 h5
      have b2 := hexDigitVal_le c6 d6 h6
      omega
  · intro a now cust accent sections lg cv bs scc rk cp h1 h2 h3 h4 h5
    exact ⟨_, build_slide_ok sections a now cust accent lg cv bs scc rk cp h1 h2 h3 h4 h5,
      vbarFills_renderedDoc a now cust accent cv bs scc rk cp lg⟩

/-- Witness for C7: `"#FF0000"` spelled as its character list, and a render
whose accent bar carries `(255, 0, 0)`. -/
theorem C7_accent_color_witness :
    rgb_hex_to_tuple (String.mk ['#', 'F', 'F', '0', '0', '0', '0']) =
      some (16 * 15 + 15, 16 * 0 + 0, 16 * 0 + 0) ∧
    ∃ doc, build_slide exAddPicture "Oct 10, 2025" "Acme Co" (255, 0, 0)
        (genericFallback "Acme Co") none = .ok doc ∧ vbarFills doc = [(255, 0, 0)] :=
  ⟨(C7_accent_color.1 'F' 'F' '0' '0' '0' '0' 15 15 0 0 0 0 rfl rfl rfl rfl rfl rfl).1,
   C7_accent_color.2.1 exAddPicture "Oct 10, 2025" "Acme Co" (255, 0, 0)
     (genericFallback "Acme Co") none _ _ _ _ _ rfl rfl rfl rfl rfl⟩

/-- A logo-placement oracle that always raises, for witnesses. -/
def exAddFail : Bytes → Except PyErr Unit :=
  fun _ => .error (.valueError "cannot identify image file")

/-- C9: the logo never decides the outcome of rendering.  For a well-formed
record, `build_slide` succeeds whatever the logo argument and however the
placement oracle behaves (a raising oracle is swallowed by the
`try/except`); the non-picture shapes of the output are exactly those of the
logo-free render; and a missing required field fails the render with the
same `KeyError` whatever the logo argument. -/
theorem C9_logo_isolation :
    (∀ (a : Bytes → Except PyErr Unit) (now cust : String) (acc : Nat × Nat × Nat)
      (sections : Sections) (lg : Option Bytes) (cv bs scc rk cp : SecVal),
      sections.lookup "corporate_vision" = some cv →
      sections.lookup "business_strategies" = some bs →
      sections.lookup "supply_chain_contribution" = some scc →
      sections.lookup "risks_of_supply_chain_failure" = some rk →
      sections.lookup "critical_capabilities" = some cp →
      ∃ doc, build_slide a now cust acc sections lg = .ok doc) ∧
    (∀ (a : Bytes → Except PyErr Unit) (now cust : String) (acc : Nat × Nat × Nat)
      (sections : Sections) (lg : Option Bytes) (cv bs scc rk cp : SecVal),
      sections.lookup "corporate_vision" = some cv →
      sections.lookup "business_strategies" = some bs →
      sections.lookup "supply_chain_contribution" = some scc →
      sections.lookup "risks_of_supply_chain_failure" = some rk →
      sections.lookup "critical_capabilities" = some cp →
      ∃ doc docNoLogo,
        build_slide a now cust acc sections lg = .ok doc ∧
        build_slide a now cust acc sections none = .ok docNoLogo ∧
        doc.filter notPicture = docNoLogo.filter notPicture) ∧
    (∀ (a : Bytes → Except PyErr Unit) (now cust : String) (acc : Nat × Nat × Nat)
      (sections : Sections) (lg : Option Bytes) (f : String),
      f ∈ requiredFields → sections.lookup f = none →
      ∃ k, k ∈ requiredFields ∧ sections.lookup k = none ∧
        build_slide a now cust acc sections lg = .error (.keyError k)) := by
  refine ⟨?_, ?_, ?_⟩
  · intro a now cust acc sections lg cv bs scc rk cp h1 h2 h3 h4 h5
    exact ⟨_, build_slide_ok sections a now cust acc lg cv bs scc rk cp h1 h2 h3 h4 h5⟩
  · intro a now cust acc sections lg cv bs scc rk cp h1 h2 h3 h4 h5
    refine ⟨_, _, build_slide_ok sections a now cust acc lg cv bs scc rk cp h1 h2 h3 h4 h5,
      build_slide_ok sections a now cust acc none cv bs scc rk cp h1 h2 h3 h4 h5, ?_⟩
    rw [filter_notPicture_renderedDoc, filter_notPicture_renderedDoc]
  · intro a now cust acc sections lg f hf hnone
    exact build_slide_missing sections a now cust acc lg f hf hnone

/-- Witness for C9: a raising logo oracle with uploaded bytes neither blocks
a well-formed render nor masks the missing-field failure. -/
theorem C9_logo_isolation_witness :
    (∃ doc, build_slide exAddFail "Oct 10, 2025" "Acme Co" (8, 87, 74)
        (genericFallback "Acme Co") (some [137, 80, 78, 71]) = .ok doc) ∧
    (∃ k, k ∈ requiredFields ∧ exNoVision.lookup k = none ∧
      build_slide exAddFail "Oct 10, 2025" "Acme Co" (8, 87, 74) exNoVision
        (some [137, 80, 78, 71]) = .error (.keyError k)) :=
  ⟨C9_logo_isolation.1 exAddFail "Oct 10, 2025" "Acme Co" (8, 87, 74)
      (genericFallback "Acme Co") (some [137, 80, 78, 71]) _ _ _ _ _ rfl rfl rfl rfl rfl,
   C9_logo_isolation.2.2 exAddFail "Oct 10, 2025" "Acme Co" (8, 87, 74) exNoVision
      (some [137, 80, 78, 71]) "corporate_vision" (by simp [requiredFields]) rfl⟩

/-! ### Claims C3 and C10 (response parsing) -/

/-- C3: the three-shape parsing policy of `safe_parse_json`.  (a) A body
that is valid JSON parses strictly to its object.  (b) A body of
backtick-free prose around one fenced block whose (optionally `json`-tagged)
content is a brace-delimited span of valid JSON — while the whole body is
not valid JSON — parses to the object embedded in the fence.  (c) A
backtick-free body (hence containing no fenced block) that is not valid
JSON raises the `ValueError` — the claim's `UnparseableContent` — and
returns no record. -/
theorem C3_parse_policy :
    (∀ (text : String) (v : Json), jsonLoads text = some v →
      safeParseJson jsonLoads text = .ok v) ∧
    (∀ (pre blk post cap : List Char) (v : Json),
      btickFree pre = true → btickFree blk = true → btickFree post = true →
      blockCapture blk = some cap →
      jsonLoads (String.mk (pre ++ (fenceStr ++ (blk ++ (fenceStr ++ post))))) = none →
      jsonLoads (String.mk cap) = some v →
      safeParseJson jsonLoads
        (String.mk (pre ++ (fenceStr ++ (blk ++ (fenceStr ++ post))))) = .ok v) ∧
    (∀ text : String, btickFree text.data = true → jsonLoads text = none →
      safeParseJson jsonLoads text =
        .error (.valueError "Could not parse JSON from model output.")) := by
  refine ⟨?_, ?_, ?_⟩
  · intro text v h
    simp [safeParseJson, h]
  · intro pre blk post cap v hpre hblk hpost hcap hnone hv
    simp only [safeParseJson, hnone]
    have hre : reFindall (String.mk (pre ++ (fenceStr ++ (blk ++ (fenceStr ++ post))))) =
        [String.mk cap] := by
      unfold reFindall
      rw [show (String.mk (pre ++ (fenceStr ++ (blk ++ (fenceStr ++ post))))).data =
          pre ++ (fenceStr ++ (blk ++ (fenceStr ++ post))) from rfl]
      rw [segScan pre _ hpre,
        reFindallL_match _ cap post (tryMatchAt_fence_block blk cap post hblk hcap),
        reFindallL_btickFree post hpost]
      rfl
    rw [hre]
    simp [firstParse, hv]
  · intro text hb hnone
    simp only [safeParseJson, hnone]
    have hre : reFindall text = [] := by
      unfold reFindall
      rw [reFindallL_btickFree text.data hb]
      rfl
    rw [hre]
    rfl

/-- Witness for C3: one concrete body per shape. -/
theorem C3_parse_policy_witness :
    safeParseJson jsonLoads "\x7b\"a\": 1\x7d" = .ok (.obj [("a", .num 1)]) ∧
    safeParseJson jsonLoads (String.mk ("Here it is: ".data ++
        (fenceStr ++ ("json\n\x7b\"a\": 1\x7d\n".data ++ (fenceStr ++ " done.".data))))) =
      .ok (.obj [("a", .num 1)]) ∧
    safeParseJson jsonLoads "no fenced block here" =
      .error (.valueError "Could not parse JSON from model output.") :=
  ⟨C3_parse_policy.1 "\x7b\"a\": 1\x7d" (.obj [("a", .num 1)]) rfl,
   C3_parse_policy.2.1 "Here it is: ".data "json\n\x7b\"a\": 1\x7d\n".data " done.".data
     "\x7b\"a\": 1\x7d".data (.obj [("a", .num 1)]) (by decide) (by decide) (by decide)
     rfl rfl rfl,
   C3_parse_policy.2.2 "no fenced block here" (by decide) rfl⟩

/-- The body C10 fails on: the first fenced block's content starts with an
opening brace but is not brace-delimited, so the non-greedy capture runs
across the fence boundary into the second block; the second, valid block is
then never considered on its own. -/
def exC10Text : String := "x ```\x7bbad``` y ```\x7b\"a\": 1\x7d``` z"

/-- C10 counterexample: on `exC10Text`, the fenced blocks are `{bad` (not
brace-delimited, hence no candidate) and `{"a": 1}` (brace-delimited, valid
JSON), so the claim predicts the parse `{"a": 1}`; the code instead captures
one cross-fence span `{bad``` y ```{"a": 1}`, fails to parse it, and raises
`UnparseableContent`. -/
theorem C10_counterexample :
    specFencedBlocks exC10Text = ["\x7bbad".data, "\x7b\"a\": 1\x7d".data] ∧
    claimC10Prediction exC10Text = some (.obj [("a", .num 1)]) ∧
    safeParseJson jsonLoads exC10Text =
      .error (.valueError "Could not parse JSON from model output.") :=
  ⟨rfl, rfl, rfl⟩

/-- C10 (amended): every candidate the scan examines is brace-delimited and
a block whose content does not open with a brace (after the optional tag and
whitespace) — a JSON array block in particular — contributes no candidate by
itself; and whenever every fenced block's content is either a brace-delimited
span (optionally tagged/padded) or brace-free, with brace- and backtick-free
prose between fences, the scan considers exactly the brace-delimited blocks,
in document order, and `safe_parse_json` returns the parse of the first one
that is valid JSON (raising `UnparseableContent` when none is). -/
theorem C10_fence_scan :
    (∀ blk cap : List Char, blockCapture blk = some cap →
      ∃ mid, cap = '{' :: (mid ++ ['}'])) ∧
    (∀ blk : List Char, (skipWs (stripTag blk)).head? ≠ some '{' →
      blockCapture blk = none) ∧
    (∀ (pre : List Char) (pairs : List (List Char × List Char)),
      btickFree pre = true →
      (∀ p ∈ pairs, btickFree p.1 = true ∧ btickFree p.2 = true ∧ braceFree p.2 = true ∧
        (blockCapture p.1 = none → braceFree p.1 = true)) →
      jsonLoads (String.mk (pre ++ fencedConcat pairs)) = none →
      safeParseJson jsonLoads (String.mk (pre ++ fencedConcat pairs)) =
        match firstParse jsonLoads
            ((pairs.filterMap fun p => blockCapture p.1).map String.mk) with
        | some v => .ok v
        | none => .error (.valueError "Could not parse JSON from model output.")) := by
  refine ⟨?_, ?_, ?_⟩
  · intro blk cap hcap
    obtain ⟨-, mid, -, -, -, -, hcapeq⟩ := blockCapture_decomp blk cap hcap
    exact ⟨mid, hcapeq⟩
  · intro blk hhead
    unfold blockCapture
    dsimp only
    cases hsk : skipWs (stripTag blk) with
    | nil => rfl
    | cons c0 t =>
      have hc0 : ¬c0 = '{' := by
        intro hc
        rw [hsk, hc] at hhead
        simp at hhead
      split
      · rename_i t' heq hlast
        injection heq with h1 h2
        exact absurd h1 hc0
      · rfl
  · intro pre pairs hpre hp hnone
    simp only [safeParseJson, hnone]
    have hre : reFindall (String.mk (pre ++ fencedConcat pairs)) =
        (pairs.filterMap fun p => blockCapture p.1).map String.mk := by
      unfold reFindall
      rw [show (String.mk (pre ++ fencedConcat pairs)).data =
          pre ++ fencedConcat pairs from rfl]
      rw [segScan pre _ hpre, reFindallL_fencedConcat pairs hp]
    rw [hre]
    cases firstParse jsonLoads ((pairs.filterMap fun p => blockCapture p.1).map String.mk) <;>
      rfl


/-- A body with an array block before the valid object block, for the
amended-C10 witness. -/
def exC10Pairs : List (List Char × List Char) :=
  [("[1, 2]".data, " then ".data), ("json \x7b\"a\": 1\x7d ".data, " end".data)]

/-- Witness for the amended C10: the array block is skipped, the tagged
object block is the first candidate, and its parse is returned. -/
theorem C10_fence_scan_witness :
    btickFree "Candidates: ".data = true ∧
    jsonLoads (String.mk ("Candidates: ".data ++ fencedConcat exC10Pairs)) = none ∧
    safeParseJson jsonLoads (String.mk ("Candidates: ".data ++ fencedConcat exC10Pairs)) =
      .ok (.obj [("a", .num 1)]) := by
  refine ⟨rfl, rfl, ?_⟩
  exact (C10_fence_scan.2.2 "Candidates: ".data exC10Pairs rfl (by decide) rfl).trans rfl

end CustomerUpdate
